import Mathlib

/-!
Verification of `scripts/virus_factory/generate_windows_3d_data.py`.

The script loads a 3-axis volume (slice, height, width), optionally pads each
slice with the median of slice 0, then enumerates overlapping fixed-size
windows with the triple loop

  for z in range(zS, zE, zskip):
    for y in range(0, data.shape[1], window[1] - overlap[1]):
      yS = min(y, data.shape[1] - window[1]); yE = yS + window[1]
      for x in range(0, data.shape[2], window[0] - overlap[0]):
        xS = min(x, data.shape[2] - window[0]); xE = xS + window[0]

writes each region as a PNG (converting float data to uint8) and appends one
row per tile to a CSV manifest.  The definitions below are a shallow
embedding of that code; the theorems settle the specification claims.
-/

/-- Number of elements of Python `range(start, stop, step)` for `step ≠ 0`:
`max 0 (ceil((stop-start)/step))`, computed with natural-number arithmetic. -/
def pyRangeLen (start stop step : Int) : Nat :=
  if 0 < step then ((stop - start).toNat + (step.toNat - 1)) / step.toNat
  else ((start - stop).toNat + ((-step).toNat - 1)) / (-step).toNat

/-- The element list of Python `range(start, stop, step)` for `step ≠ 0`. -/
def pyRangeList (start stop step : Int) : List Int :=
  (List.range (pyRangeLen start stop step)).map (fun (i : Nat) => start + (i : Int) * step)

/-- Python `range(start, stop, step)`: raises `ValueError` when `step = 0`
(at construction time, regardless of the would-be emptiness of the range). -/
def pyRange (start stop step : Int) : Except String (List Int) :=
  if step = 0 then Except.error "range() arg 3 must not be zero"
  else Except.ok (pyRangeList start stop step)

lemma lt_ceilLen_iff (d s i : Nat) (hs : 0 < s) :
    i < (d + (s - 1)) / s ↔ i * s < d := by
  rw [Nat.lt_iff_add_one_le, Nat.le_div_iff_mul_le hs, Nat.succ_mul]
  omega

lemma mem_pyRangeList_pos (start stop step : Int) (hs : 0 < step) (z : Int) :
    z ∈ pyRangeList start stop step ↔
      ∃ i : Nat, z = start + (i : Int) * step ∧ z < stop := by
  have hsn : 0 < step.toNat := by omega
  have hcast : ((step.toNat : Int)) = step := Int.toNat_of_nonneg hs.le
  unfold pyRangeList pyRangeLen
  rw [if_pos hs]
  simp only [List.mem_map, List.mem_range]
  constructor
  · rintro ⟨i, hi, rfl⟩
    rw [lt_ceilLen_iff _ _ _ hsn] at hi
    refine ⟨i, rfl, ?_⟩
    have h1 : ((i * step.toNat : Nat) : Int) = (i : Int) * step := by
      rw [Nat.cast_mul, hcast]
    omega
  · rintro ⟨i, rfl, hlt⟩
    refine ⟨i, ?_, rfl⟩
    rw [lt_ceilLen_iff _ _ _ hsn]
    have h1 : ((i * step.toNat : Nat) : Int) = (i : Int) * step := by
      rw [Nat.cast_mul, hcast]
    omega

lemma pyRangeList_ne_nil (start stop step : Int) (hs : 0 < step)
    (h : start < stop) : pyRangeList start stop step ≠ [] := by
  have hm : start ∈ pyRangeList start stop step :=
    (mem_pyRangeList_pos start stop step hs start).mpr ⟨0, by simp, h⟩
  exact List.ne_nil_of_mem hm

lemma pyRangeList_nil_of_neg (start stop step : Int) (hs : step < 0)
    (h : start ≤ stop) : pyRangeList start stop step = [] := by
  have hlen : pyRangeLen start stop step = 0 := by
    unfold pyRangeLen
    rw [if_neg (by omega)]
    have h0 : (start - stop).toNat = 0 := by omega
    rw [h0]
    exact Nat.div_eq_of_lt (by omega)
  unfold pyRangeList
  rw [hlen]
  rfl

lemma pyRangeList_sorted (start stop step : Int) (hs : 0 < step) :
    (pyRangeList start stop step).Pairwise (· < ·) := by
  unfold pyRangeList
  rw [List.pairwise_map]
  refine (List.pairwise_lt_range _).imp ?_
  intro a b hab
  have hc : (a : Int) < (b : Int) := by exact_mod_cast hab
  have := mul_lt_mul_of_pos_right hc hs
  omega

/-- A tile descriptor: slice index and the pixel bounding box the inner loops
compute (`xS`, `xE`, `yS`, `yE` in the script). -/
structure TileDescriptor where
  slice : Int
  xS : Int
  xE : Int
  yS : Int
  yE : Int
deriving DecidableEq, Repr

/-- The body of the triple loop: for each visited slice `z`, each raw Y
candidate `y` and each raw X candidate `x`, the script emits the descriptor
with `yS = min y (height - window_y)`, `yE = yS + window_y`,
`xS = min x (width - window_x)`, `xE = xS + window_x`. -/
def planDescs (zs ys xs : List Int) (height width wx wy : Nat) :
    List TileDescriptor :=
  zs.flatMap fun z =>
    ys.flatMap fun y =>
      xs.map fun x =>
        { slice := z
          xS := min x ((width : Int) - wx)
          xE := min x ((width : Int) - wx) + wx
          yS := min y ((height : Int) - wy)
          yE := min y ((height : Int) - wy) + wy }

/-- The window planner as the script runs it: `range(zS, zE, zskip)` is
constructed first; if it is empty the inner loops never run; otherwise the Y
range `range(0, height, wy - oy)` is constructed (raising when the stride is
zero), and if any Y candidate exists the X range `range(0, width, wx - ox)`
is constructed inside the Y loop.  Errors are the `ValueError` Python raises
for a zero `range` step. -/
def plan (height width wx wy ox oy : Nat) (zS zE zskip : Int) :
    Except String (List TileDescriptor) :=
  if zskip = 0 then Except.error "range() arg 3 must not be zero"
  else if pyRangeList zS zE zskip = [] then Except.ok []
  else if (wy : Int) - oy = 0 then Except.error "range() arg 3 must not be zero"
  else if pyRangeList 0 height ((wy : Int) - oy) = [] then Except.ok []
  else if (wx : Int) - ox = 0 then Except.error "range() arg 3 must not be zero"
  else Except.ok (planDescs (pyRangeList zS zE zskip)
    (pyRangeList 0 height ((wy : Int) - oy))
    (pyRangeList 0 width ((wx : Int) - ox)) height width wx wy)

/-- Raw candidate start positions along one axis:
`range(0, axis_extent, window - overlap)`. -/
def axisStarts (extent window overlap : Nat) : Except String (List Int) :=
  pyRange 0 extent ((window : Int) - overlap)

/-- Clamp policy of the script: `min s (axis_extent - window)` for a raw
candidate start `s`. -/
def clampedStart (extent window : Nat) (s : Int) : Int :=
  min s ((extent : Int) - window)

/-- The clamped start positions along one axis, in emission order. -/
def clampedStarts (extent window overlap : Nat) : Except String (List Int) :=
  (axisStarts extent window overlap).map (List.map (clampedStart extent window))

/-- Filename scheme of the script:
`prefix_z_xSxxExySxyE.png` built with str.format. -/
def tileFilename (pre : String) (d : TileDescriptor) : String :=
  pre ++ "_" ++ toString d.slice ++ "_" ++ toString d.xS ++ "x" ++
    toString d.xE ++ "x" ++ toString d.yS ++ "x" ++ toString d.yE ++ ".png"

/-- Resolution of the lower Z bound: the sentinel token start (modelled as
`none`) resolves to 0, a literal resolves to itself
(`zS = 0 if zS == 'start' else int(zS)`). -/
def resolveZStart (b : Option Int) : Int :=
  match b with
  | none => 0
  | some n => n

/-- Resolution of the upper Z bound: the sentinel token end (modelled as
`none`) resolves to the total slice count, a literal resolves to itself
(`zE = data.shape[0] if zE == 'end' else int(zE)`). -/
def resolveZEnd (slices : Nat) (b : Option Int) : Int :=
  match b with
  | none => (slices : Int)
  | some n => n

/-- Numpy dtypes that occur in the script's data path. -/
inductive DType where
  | float64
  | uint8
  | uint16
  | int32
deriving DecidableEq, Repr

/-- The test `np.issubdtype(roi.dtype, np.float)` (`np.float` is Python
`float`, i.e. float64). -/
def npIssubdtypeFloat (t : DType) : Bool :=
  match t with
  | DType.float64 => true
  | _ => false

/-- A 3-axis volume indexed (slice, row, column), with its numpy dtype.
Values are rationals: the script's pixel values are numeric and no claim
depends on floating-point rounding. -/
structure Volume where
  slices : Nat
  height : Nat
  width : Nat
  dtype : DType
  val : Nat → Nat → Nat → ℚ

/-- The pixel values of slice `z` flattened in row-major order
(`data[z, :, :]`). -/
def sliceValues (v : Volume) (z : Nat) : List ℚ :=
  (List.range v.height).flatMap fun r =>
    (List.range v.width).map fun c => v.val z r c

/-- `np.median` on a flat list: sort, take the middle element for odd length
and the mean of the two middle elements for even length. -/
def npMedian (l : List ℚ) : ℚ :=
  let s := List.insertionSort (· ≤ ·) l
  let n := s.length
  if n % 2 = 1 then s.getD (n / 2) 0
  else (s.getD (n / 2 - 1) 0 + s.getD (n / 2) 0) / 2

/-- `np.pad(a, ((top, bottom), (left, right)), 'constant', constant_values=fill)`
on a 2D array of shape `h × w`, as a total function on indices of the padded
array. -/
def npPadConstant (h w : Nat) (a : Nat → Nat → ℚ)
    (top left : Nat) (fill : ℚ) : Nat → Nat → ℚ :=
  fun r c =>
    if top ≤ r ∧ r < top + h ∧ left ≤ c ∧ c < left + w
    then a (r - top) (c - left) else fill

/-- The padding branch of the script: the fill value is the median of slice 0
of the input, the padded buffer is `np.zeros((slices, height + 2*oy,
width + 2*ox))` — dtype float64, numpy's default — and every slice is padded
independently with the one fixed fill value. -/
def padVolume (v : Volume) (ox oy : Nat) : Volume :=
  { slices := v.slices
    height := v.height + 2 * oy
    width := v.width + 2 * ox
    dtype := DType.float64
    val := fun z => npPadConstant v.height v.width (v.val z) oy ox
      (npMedian (sliceValues v 0)) }

/-- Dtype of the array handed to `imsave`: `roi` has the volume's dtype, and
when `np.issubdtype(roi.dtype, np.float)` holds the script converts it with
`img_as_ubyte`, producing uint8. -/
def renderedDtype (v : Volume) : DType :=
  if npIssubdtypeFloat v.dtype then DType.uint8 else v.dtype

/-- Normalisation of one Python/numpy slice bound against an axis of length
`extent`: a negative index counts from the end (floored at 0), a
non-negative index is capped at the extent. -/
def npSliceIndex (extent : Nat) (i : Int) : Nat :=
  if i < 0 then ((extent : Int) + i).toNat else min i.toNat extent

/-- Number of elements selected by `a[s:e]` on an axis of length `extent`. -/
def npSliceLen (extent : Nat) (s e : Int) : Nat :=
  npSliceIndex extent e - npSliceIndex extent s

/-- One manifest row as the script buffers it:
`[fname, prefix, z, xS, xE, yS, yE, source, transpose]` (`pfx` stands for the
prefix argument). -/
structure ManifestRecord where
  filename : String
  pfx : String
  slice : Int
  xstart : Int
  xend : Int
  ystart : Int
  yend : Int
  source : String
  transpose : Option String
deriving DecidableEq, Repr

/-- A line of the CSV file: the header line or one body line carrying the
explicit row id written from the DataFrame index. -/
inductive CsvRow where
  | header (cols : List String)
  | body (id : Nat) (rec : ManifestRecord)
deriving DecidableEq, Repr

/-- Whether a CSV line is the header line. -/
def CsvRow.isHeader : CsvRow → Bool
  | CsvRow.header _ => true
  | CsvRow.body _ _ => false

/-- The row id of a body line. -/
def CsvRow.rowId : CsvRow → Option Nat
  | CsvRow.header _ => none
  | CsvRow.body i _ => some i

/-- The record carried by a body line. -/
def CsvRow.rowRec : CsvRow → Option ManifestRecord
  | CsvRow.header _ => none
  | CsvRow.body _ r => some r

/-- Column header of the manifest: the DataFrame's index name followed by its
columns, as `to_csv` writes them. -/
def manifestColumns : List String :=
  ["id", "filename", "prefix", "slice", "xstart", "xend", "ystart", "yend",
   "#source", "#transpose"]

/-- Body lines for the buffered records, ids counting up from `i` (the
DataFrame's default RangeIndex starts at 0 and increments by 1). -/
def rowsFrom (i : Nat) : List ManifestRecord → List CsvRow
  | [] => []
  | r :: rs => CsvRow.body i r :: rowsFrom (i + 1) rs

/-- The manifest records the flush builds from the emitted descriptors, in
emission order (`csv_list.append([...])` inside the loop). -/
def manifestRecords (pre source : String) (transpose : Option String)
    (l : List TileDescriptor) : List ManifestRecord :=
  l.map fun d =>
    { filename := tileFilename pre d
      pfx := pre
      slice := d.slice
      xstart := d.xS
      xend := d.xE
      ystart := d.yS
      yend := d.yE
      source := source
      transpose := transpose }

/-- The flush at the end of the run: when a file already exists at the target
path the DataFrame is written with `header=False` (body lines only, ids
still written); otherwise `to_csv` writes the header line and then the body
lines. -/
def flushManifest (fileExists : Bool) (recs : List ManifestRecord) :
    List CsvRow :=
  if fileExists then rowsFrom 0 recs
  else CsvRow.header manifestColumns :: rowsFrom 0 recs

/-- Lexicographic order on descriptors by (slice, yS, xS): the ordering the
spec asserts for the emitted sequence. -/
def descLe (d e : TileDescriptor) : Prop :=
  d.slice < e.slice ∨
    (d.slice = e.slice ∧ (d.yS < e.yS ∨ (d.yS = e.yS ∧ d.xS ≤ e.xS)))

/-- Lexicographic order on descriptors by (slice, yS) only. -/
def descLeZY (d e : TileDescriptor) : Prop :=
  d.slice < e.slice ∨ (d.slice = e.slice ∧ d.yS ≤ e.yS)

instance : DecidableRel descLe := fun d e => by
  unfold descLe
  exact inferInstance

instance : DecidableRel descLeZY := fun d e => by
  unfold descLeZY
  exact inferInstance

lemma pairwise_of_forall_rel {α : Type} {R : α → α → Prop} :
    ∀ (l : List α), (∀ a b, R a b) → l.Pairwise R := by
  intro l h
  induction l with
  | nil => exact List.Pairwise.nil
  | cons a t ih => exact List.Pairwise.cons (fun b _ => h a b) ih

lemma pairwise_flatMap {α β : Type} {R : β → β → Prop} (f : α → List β) :
    ∀ (l : List α), (∀ a ∈ l, (f a).Pairwise R) →
      l.Pairwise (fun a b => ∀ x ∈ f a, ∀ y ∈ f b, R x y) →
      (l.flatMap f).Pairwise R := by
  intro l
  induction l with
  | nil => intro _ _; simp
  | cons a t ih =>
    intro h1 h2
    rw [List.flatMap_cons, List.pairwise_append]
    rcases List.pairwise_cons.mp h2 with ⟨ha, ht⟩
    refine ⟨h1 a (List.mem_cons_self a t), ih (fun b hb => h1 b (List.mem_cons_of_mem a hb)) ht, ?_⟩
    intro x hx y hy
    rcases List.mem_flatMap.mp hy with ⟨b, hb, hyb⟩
    exact ha b hb x hx y hyb

lemma mem_planDescs {zs ys xs : List Int} {height width wx wy : Nat}
    {d : TileDescriptor} :
    d ∈ planDescs zs ys xs height width wx wy ↔
      ∃ z ∈ zs, ∃ y ∈ ys, ∃ x ∈ xs,
        d = { slice := z
              xS := min x ((width : Int) - wx)
              xE := min x ((width : Int) - wx) + wx
              yS := min y ((height : Int) - wy)
              yE := min y ((height : Int) - wy) + wy } := by
  unfold planDescs
  simp only [List.mem_flatMap, List.mem_map]
  constructor
  · rintro ⟨z, hz, y, hy, x, hx, rfl⟩
    exact ⟨z, hz, y, hy, x, hx, rfl⟩
  · rintro ⟨z, hz, y, hy, x, hx, rfl⟩
    exact ⟨z, hz, y, hy, x, hx, rfl⟩

lemma planDescs_nil_xs (zs ys : List Int) (height width wx wy : Nat) :
    planDescs zs ys [] height width wx wy = [] := by
  unfold planDescs
  simp

lemma rowsFrom_length (i : Nat) (rs : List ManifestRecord) :
    (rowsFrom i rs).length = rs.length := by
  induction rs generalizing i with
  | nil => rfl
  | cons r t ih => simp [rowsFrom, ih]

lemma rowsFrom_countP_header (i : Nat) (rs : List ManifestRecord) :
    (rowsFrom i rs).countP CsvRow.isHeader = 0 := by
  induction rs generalizing i with
  | nil => rfl
  | cons r t ih => simp [rowsFrom, List.countP_cons, ih, CsvRow.isHeader]

lemma rowsFrom_filterMap_rowId (i : Nat) (rs : List ManifestRecord) :
    (rowsFrom i rs).filterMap CsvRow.rowId = List.range' i rs.length := by
  induction rs generalizing i with
  | nil => rfl
  | cons r t ih =>
    simp [rowsFrom, List.filterMap_cons, CsvRow.rowId, ih, List.range'_succ]

lemma rowsFrom_filterMap_rowRec (i : Nat) (rs : List ManifestRecord) :
    (rowsFrom i rs).filterMap CsvRow.rowRec = rs := by
  induction rs generalizing i with
  | nil => rfl
  | cons r t ih => simp [rowsFrom, List.filterMap_cons, CsvRow.rowRec, ih]

lemma npSliceIndex_le (extent : Nat) (i : Int) : npSliceIndex extent i ≤ extent := by
  unfold npSliceIndex
  split_ifs <;> omega

lemma npSliceLen_le (extent : Nat) (s e : Int) : npSliceLen extent s e ≤ extent := by
  unfold npSliceLen
  have := npSliceIndex_le extent e
  omega

/-- C1: for window dimensions no larger than the axis extents, every tile
descriptor the planner produces has exactly the configured window size on
both axes: `xE - xS` equals the window width and `yE - yS` equals the window
height, because each candidate start is clamped to
`min s (axis_extent - window)` and the end is the clamped start plus the
window dimension. -/
theorem planner_tile_size (height width wx wy ox oy : Nat) (zS zE zskip : Int)
    (hx : wx ≤ width) (hy : wy ≤ height) (L : List TileDescriptor)
    (hp : plan height width wx wy ox oy zS zE zskip = Except.ok L) :
    ∀ d ∈ L, d.xE - d.xS = (wx : Int) ∧ d.yE - d.yS = (wy : Int) := by
  unfold plan at hp
  split_ifs at hp
  · obtain rfl : L = [] := by injection hp with h; exact h.symm
    intro d hd
    simp at hd
  · obtain rfl : L = [] := by injection hp with h; exact h.symm
    intro d hd
    simp at hd
  · obtain rfl : L = planDescs _ _ _ _ _ _ _ := by injection hp with h; exact h.symm
    intro d hd
    rw [mem_planDescs] at hd
    obtain ⟨z, _, y, _, x, _, rfl⟩ := hd
    constructor <;> simp

/-- C1 witness at a concrete input. -/
theorem planner_tile_size_witness :
    ((4 : Nat) ≤ 4 ∧ (4 : Nat) ≤ 4 ∧
      plan 4 4 4 4 0 0 0 1 1 =
        Except.ok [{ slice := 0, xS := 0, xE := 4, yS := 0, yE := 4 }]) ∧
    ∀ d ∈ [({ slice := 0, xS := 0, xE := 4, yS := 0, yE := 4 } : TileDescriptor)],
      d.xE - d.xS = ((4 : Nat) : Int) ∧ d.yE - d.yS = ((4 : Nat) : Int) :=
  ⟨⟨by decide, by decide, by rfl⟩,
    planner_tile_size 4 4 4 4 0 0 0 1 1 (by decide) (by decide) _ (by rfl)⟩

/-- C5: padding leaves the slice count unchanged, grows the height by
`2 * overlap_y` and the width by `2 * overlap_x`, and every padded slice is
the corresponding input slice centered in a border filled with the single
constant `np.median(data[0, :, :])` computed on the pre-padded volume. -/
theorem pad_shape_and_fill (v : Volume) (ox oy : Nat) :
    (padVolume v ox oy).slices = v.slices ∧
    (padVolume v ox oy).height = v.height + 2 * oy ∧
    (padVolume v ox oy).width = v.width + 2 * ox ∧
    ∀ z r c, (padVolume v ox oy).val z r c =
      if oy ≤ r ∧ r < oy + v.height ∧ ox ≤ c ∧ c < ox + v.width
      then v.val z (r - oy) (c - ox)
      else npMedian (sliceValues v 0) :=
  ⟨rfl, rfl, rfl, fun _ _ _ => rfl⟩

/-- C8: flushing to a path with no existing file writes exactly one header
line first, followed by one body line per recorded tile with ids 0, 1, 2, …;
flushing to a path where a file exists writes the buffered records as body
lines only, with no header line. -/
theorem manifest_flush_modes (recs : List ManifestRecord) :
    (flushManifest false recs).head? = some (CsvRow.header manifestColumns) ∧
    (flushManifest false recs).length = recs.length + 1 ∧
    (flushManifest false recs).countP CsvRow.isHeader = 1 ∧
    (flushManifest false recs).filterMap CsvRow.rowId = List.range recs.length ∧
    (flushManifest false recs).filterMap CsvRow.rowRec = recs ∧
    (flushManifest true recs).countP CsvRow.isHeader = 0 ∧
    (flushManifest true recs).filterMap CsvRow.rowId = List.range recs.length ∧
    (flushManifest true recs).filterMap CsvRow.rowRec = recs ∧
    (flushManifest true recs).length = recs.length := by
  unfold flushManifest
  simp only [Bool.false_eq_true, if_false, if_true]
  refine ⟨rfl, ?_, ?_, ?_, ?_, ?_, ?_, ?_, ?_⟩
  · simp [rowsFrom_length]
  · simp [List.countP_cons, rowsFrom_countP_header, CsvRow.isHeader]
  · rw [List.filterMap_cons]
    simp only [CsvRow.rowId]
    rw [List.range_eq_range']
    exact rowsFrom_filterMap_rowId 0 recs
  · rw [List.filterMap_cons]
    simp only [CsvRow.rowRec]
    exact rowsFrom_filterMap_rowRec 0 recs
  · exact rowsFrom_countP_header 0 recs
  · rw [List.range_eq_range']
    exact rowsFrom_filterMap_rowId 0 recs
  · exact rowsFrom_filterMap_rowRec 0 recs
  · exact rowsFrom_length 0 recs

/-- C9: with axis_extent 100, window 40, overlap 10 the raw starts are
0, 30, 60, 90 and the clamped starts 0, 30, 60, 60: the duplicate clamped
window is emitted again rather than suppressed, so the planner produces the
same descriptor twice, the same filename twice and a duplicate manifest
record. -/
theorem duplicate_clamped_window_emitted :
    clampedStarts 100 40 10 = Except.ok [0, 30, 60, 60] ∧
    plan 100 30 30 40 0 10 0 1 1 = Except.ok
      [{ slice := 0, xS := 0, xE := 30, yS := 0, yE := 40 },
       { slice := 0, xS := 0, xE := 30, yS := 30, yE := 70 },
       { slice := 0, xS := 0, xE := 30, yS := 60, yE := 100 },
       { slice := 0, xS := 0, xE := 30, yS := 60, yE := 100 }] ∧
    List.count ({ slice := 0, xS := 0, xE := 30, yS := 60, yE := 100 } : TileDescriptor)
      [{ slice := 0, xS := 0, xE := 30, yS := 0, yE := 40 },
       { slice := 0, xS := 0, xE := 30, yS := 30, yE := 70 },
       { slice := 0, xS := 0, xE := 30, yS := 60, yE := 100 },
       { slice := 0, xS := 0, xE := 30, yS := 60, yE := 100 }] = 2 ∧
    List.count (tileFilename "data" { slice := 0, xS := 0, xE := 30, yS := 60, yE := 100 })
      (List.map (tileFilename "data")
        [{ slice := 0, xS := 0, xE := 30, yS := 0, yE := 40 },
         { slice := 0, xS := 0, xE := 30, yS := 30, yE := 70 },
         { slice := 0, xS := 0, xE := 30, yS := 60, yE := 100 },
         { slice := 0, xS := 0, xE := 30, yS := 60, yE := 100 }]) = 2 ∧
    List.count
      { filename := tileFilename "data" { slice := 0, xS := 0, xE := 30, yS := 60, yE := 100 }
        pfx := "data", slice := 0, xstart := 0, xend := 30, ystart := 60,
        yend := 100, source := "in.h5", transpose := none }
      (manifestRecords "data" "in.h5" none
        [{ slice := 0, xS := 0, xE := 30, yS := 0, yE := 40 },
         { slice := 0, xS := 0, xE := 30, yS := 30, yE := 70 },
         { slice := 0, xS := 0, xE := 30, yS := 60, yE := 100 },
         { slice := 0, xS := 0, xE := 30, yS := 60, yE := 100 }]) = 2 :=
  ⟨by rfl, by rfl, by rfl, by rfl, by rfl⟩

/-- C10: the padded buffer is allocated with `np.zeros`, whose default dtype
is float64, so whatever the input volume's element type, every tile rendered
from a padded volume passes the `np.issubdtype(roi.dtype, np.float)` test
and is converted to uint8 by `img_as_ubyte`. -/
theorem padded_volume_renders_ubyte (v : Volume) (ox oy : Nat) :
    (padVolume v ox oy).dtype = DType.float64 ∧
    npIssubdtypeFloat (padVolume v ox oy).dtype = true ∧
    renderedDtype (padVolume v ox oy) = DType.uint8 :=
  ⟨rfl, rfl, rfl⟩

/-- C7: the sentinel lower bound resolves to 0 and the sentinel upper bound
to the total slice count; for skip k ≥ 1 the visited slice indices are
exactly the set start, start+k, start+2k, … intersected with the half-open
interval from start to end; skip 0 makes `range` raise. -/
theorem slice_selection (slices : Nat) (zSb zEb : Option Int) (k : Int)
    (hk : 1 ≤ k) :
    resolveZStart none = 0 ∧
    resolveZEnd slices none = (slices : Int) ∧
    (∀ n : Int, resolveZStart (some n) = n ∧ resolveZEnd slices (some n) = n) ∧
    pyRange (resolveZStart zSb) (resolveZEnd slices zEb) 0 =
      Except.error "range() arg 3 must not be zero" ∧
    ∃ l, pyRange (resolveZStart zSb) (resolveZEnd slices zEb) k = Except.ok l ∧
      ∀ z : Int, z ∈ l ↔ ∃ i : Nat,
        z = resolveZStart zSb + (i : Int) * k ∧
        resolveZStart zSb ≤ z ∧ z < resolveZEnd slices zEb := by
  refine ⟨rfl, rfl, fun n => ⟨rfl, rfl⟩, rfl, ?_⟩
  refine ⟨pyRangeList (resolveZStart zSb) (resolveZEnd slices zEb) k, ?_, ?_⟩
  · unfold pyRange
    rw [if_neg (by omega)]
  · intro z
    rw [mem_pyRangeList_pos _ _ _ (by omega) z]
    constructor
    · rintro ⟨i, rfl, hlt⟩
      refine ⟨i, rfl, ?_, hlt⟩
      have h0 : (0 : Int) ≤ (i : Int) * k :=
        mul_nonneg (Int.natCast_nonneg i) (by omega)
      omega
    · rintro ⟨i, hz, _, hlt⟩
      exact ⟨i, hz, hlt⟩

/-- C7 witness at a concrete input. -/
theorem slice_selection_witness :
    (1 : Int) ≤ 2 ∧
    (resolveZStart none = 0 ∧
     resolveZEnd 5 none = ((5 : Nat) : Int) ∧
     (∀ n : Int, resolveZStart (some n) = n ∧ resolveZEnd 5 (some n) = n) ∧
     pyRange (resolveZStart none) (resolveZEnd 5 none) 0 =
       Except.error "range() arg 3 must not be zero" ∧
     ∃ l, pyRange (resolveZStart none) (resolveZEnd 5 none) 2 = Except.ok l ∧
       ∀ z : Int, z ∈ l ↔ ∃ i : Nat,
         z = resolveZStart none + (i : Int) * 2 ∧
         resolveZStart none ≤ z ∧ z < resolveZEnd 5 none) :=
  ⟨by decide, slice_selection 5 none none 2 (by decide)⟩

lemma getLast?_range_map {α : Type} (f : Nat → α) (n : Nat) (hn : 0 < n) :
    ((List.range n).map f).getLast? = some (f (n - 1)) := by
  cases n with
  | zero => omega
  | succ m =>
    rw [List.range_succ, List.map_append]
    simp [List.getLast?_concat]

/-- C2: for window ≤ extent and overlap < window, the clamped windows along
an axis cover the whole interval from 0 to the axis extent with no gap, and
the last produced window's end coordinate equals the axis extent exactly. -/
theorem axis_coverage (extent window overlap : Nat)
    (h1 : window ≤ extent) (h2 : overlap < window) :
    ∃ l, axisStarts extent window overlap = Except.ok l ∧
      (∀ p : Int, 0 ≤ p → p < (extent : Int) →
        ∃ s ∈ l, clampedStart extent window s ≤ p ∧
          p < clampedStart extent window s + (window : Int)) ∧
      (∃ s, l.getLast? = some s ∧
        clampedStart extent window s + (window : Int) = (extent : Int)) := by
  have hstride : 0 < window - overlap := by omega
  have hstep : ((window : Int) - (overlap : Int)) = ((window - overlap : Nat) : Int) := by
    omega
  have hpos : (0 : Int) < (window : Int) - (overlap : Int) := by omega
  refine ⟨pyRangeList 0 extent ((window : Int) - overlap), ?_, ?_, ?_⟩
  · unfold axisStarts pyRange
    rw [if_neg (by omega)]
  · intro p hp0 hpe
    have hq : ((p.toNat : Int)) = p := Int.toNat_of_nonneg hp0
    set q := p.toNat with hqdef
    set k := q / (window - overlap) with hkdef
    have hks : k * (window - overlap) ≤ q := by
      rw [hkdef]
      exact Nat.div_mul_le_self q (window - overlap)
    have hqe : q < extent := by omega
    refine ⟨((k * (window - overlap) : Nat) : Int), ?_, ?_, ?_⟩
    · refine (mem_pyRangeList_pos 0 extent _ hpos _).mpr ⟨k, ?_, by omega⟩
      rw [Nat.cast_mul, hstep]
      ring
    · calc clampedStart extent window ((k * (window - overlap) : Nat) : Int)
          ≤ ((k * (window - overlap) : Nat) : Int) := min_le_left _ _
        _ ≤ p := by omega
    · have hmod := Nat.mod_add_div q (window - overlap)
      have hlt := Nat.mod_lt q hstride
      have hcomm : (window - overlap) * (q / (window - overlap)) =
          k * (window - overlap) := by
        rw [hkdef, Nat.mul_comm]
      rcases le_total ((k * (window - overlap) : Nat) : Int)
          ((extent : Int) - (window : Int)) with hmin | hmin
      · rw [clampedStart, min_eq_left hmin]
        omega
      · rw [clampedStart, min_eq_right hmin]
        omega
  · unfold pyRangeList
    generalize hndef : pyRangeLen 0 (extent : Int) ((window : Int) - (overlap : Int)) = n
    have hlen : n = (extent + ((window - overlap) - 1)) / (window - overlap) := by
      rw [← hndef]
      unfold pyRangeLen
      rw [if_pos hpos]
      have e1 : ((extent : Int) - 0).toNat = extent := by omega
      have e2 : ((window : Int) - (overlap : Int)).toNat = window - overlap := by
        omega
      rw [e1, e2]
    have hext : 0 < extent := by omega
    have hn1 : 0 < n := by
      have := (lt_ceilLen_iff extent (window - overlap) 0 hstride).mpr
        (by omega : 0 * (window - overlap) < extent)
      omega
    have hnn : ¬ n * (window - overlap) < extent := by
      intro hc
      have := (lt_ceilLen_iff extent (window - overlap) n hstride).mpr hc
      omega
    have hprod : (n - 1) * (window - overlap) + (window - overlap) =
        n * (window - overlap) := by
      cases n with
      | zero => omega
      | succ m =>
        simp only [Nat.add_sub_cancel, Nat.succ_mul]
    refine ⟨(0 : Int) + ((n - 1 : Nat) : Int) * ((window : Int) - (overlap : Int)), ?_, ?_⟩
    · exact getLast?_range_map _ n hn1
    · have hs : (0 : Int) + ((n - 1 : Nat) : Int) * ((window : Int) - (overlap : Int)) =
          (((n - 1) * (window - overlap) : Nat) : Int) := by
        rw [Nat.cast_mul, hstep]
        ring
      have hNat : extent - window ≤ (n - 1) * (window - overlap) := by omega
      rw [clampedStart, hs, min_eq_right (by omega)]
      omega

/-- C2 witness at a concrete input. -/
theorem axis_coverage_witness :
    ((4 : Nat) ≤ 10 ∧ (1 : Nat) < 4) ∧
    (∃ l, axisStarts 10 4 1 = Except.ok l ∧
      (∀ p : Int, 0 ≤ p → p < ((10 : Nat) : Int) →
        ∃ s ∈ l, clampedStart 10 4 s ≤ p ∧
          p < clampedStart 10 4 s + ((4 : Nat) : Int)) ∧
      (∃ s, l.getLast? = some s ∧
        clampedStart 10 4 s + ((4 : Nat) : Int) = ((10 : Nat) : Int))) :=
  ⟨⟨by decide, by decide⟩, axis_coverage 10 4 1 (by decide) (by decide)⟩

/-- C3 counterexample: with axis extent 10 and window 20 on the Y axis
(window larger than the extent) the planner does not fail: it succeeds and
emits a descriptor, whose clamped Y start is the negative value
10 - 20 = -10. -/
theorem oversized_window_no_error :
    (10 : Nat) < 20 ∧
    plan 10 30 30 20 0 5 0 1 1 =
      Except.ok [{ slice := 0, xS := 0, xE := 30, yS := -10, yE := 10 }] :=
  ⟨by decide, by rfl⟩

/-- C3 amended: when the window dimension exceeds the axis extent on some
axis the run does not terminate with a failure; planning succeeds and emits
descriptors whose start on each oversized axis is the negative value
axis_extent - window, and the region numpy actually extracts for such a
descriptor has fewer than window_dimension pixels along that axis, so the
tiles are silently produced undersized. -/
theorem oversized_window_amended (height width wx wy ox oy : Nat)
    (zS zE zskip : Int) (hzk : 1 ≤ zskip) (hz : zS < zE)
    (hh : 0 < height) (hw : 0 < width) (hoy : oy < wy) (hox : ox < wx)
    (hover : height < wy ∨ width < wx) :
    ∃ L, plan height width wx wy ox oy zS zE zskip = Except.ok L ∧ L ≠ [] ∧
      (height < wy → ∀ d ∈ L, d.yS = (height : Int) - (wy : Int) ∧ d.yS < 0 ∧
        npSliceLen height d.yS d.yE < wy) ∧
      (width < wx → ∀ d ∈ L, d.xS = (width : Int) - (wx : Int) ∧ d.xS < 0 ∧
        npSliceLen width d.xS d.xE < wx) := by
  have hsy : (0 : Int) < (wy : Int) - (oy : Int) := by omega
  have hsx : (0 : Int) < (wx : Int) - (ox : Int) := by omega
  have hzs : pyRangeList zS zE zskip ≠ [] :=
    pyRangeList_ne_nil zS zE zskip (by omega) hz
  have hys : pyRangeList 0 height ((wy : Int) - oy) ≠ [] :=
    pyRangeList_ne_nil 0 height _ hsy (by omega)
  have hxs : pyRangeList 0 width ((wx : Int) - ox) ≠ [] :=
    pyRangeList_ne_nil 0 width _ hsx (by omega)
  refine ⟨planDescs (pyRangeList zS zE zskip)
    (pyRangeList 0 height ((wy : Int) - oy))
    (pyRangeList 0 width ((wx : Int) - ox)) height width wx wy,
    ?_, ?_, ?_, ?_⟩
  · unfold plan
    rw [if_neg (by omega), if_neg hzs, if_neg (by omega), if_neg hys,
      if_neg (by omega)]
  · rcases List.exists_mem_of_ne_nil _ hzs with ⟨z, hzm⟩
    rcases List.exists_mem_of_ne_nil _ hys with ⟨y, hym⟩
    rcases List.exists_mem_of_ne_nil _ hxs with ⟨x, hxm⟩
    exact List.ne_nil_of_mem (mem_planDescs.mpr ⟨z, hzm, y, hym, x, hxm, rfl⟩)
  · intro hhw d hd
    rcases mem_planDescs.mp hd with ⟨z, _, y, hym, x, _, rfl⟩
    rcases (mem_pyRangeList_pos 0 height _ hsy y).mp hym with ⟨i, hy0, _⟩
    have hy0' : 0 ≤ y := by
      have h0 : (0 : Int) ≤ (i : Int) * ((wy : Int) - oy) :=
        mul_nonneg (Int.natCast_nonneg i) (by omega)
      omega
    have hys' : min y ((height : Int) - wy) = (height : Int) - wy :=
      min_eq_right (by omega)
    refine ⟨by simpa using hys', by simp [hys']; omega, ?_⟩
    have := npSliceLen_le height
      (min y ((height : Int) - wy)) (min y ((height : Int) - wy) + wy)
    simp only
    omega
  · intro hww d hd
    rcases mem_planDescs.mp hd with ⟨z, _, y, _, x, hxm, rfl⟩
    rcases (mem_pyRangeList_pos 0 width _ hsx x).mp hxm with ⟨i, hx0, _⟩
    have hx0' : 0 ≤ x := by
      have h0 : (0 : Int) ≤ (i : Int) * ((wx : Int) - ox) :=
        mul_nonneg (Int.natCast_nonneg i) (by omega)
      omega
    have hxs' : min x ((width : Int) - wx) = (width : Int) - wx :=
      min_eq_right (by omega)
    refine ⟨by simpa using hxs', by simp [hxs']; omega, ?_⟩
    have := npSliceLen_le width
      (min x ((width : Int) - wx)) (min x ((width : Int) - wx) + wx)
    simp only
    omega

/-- C3 amended witness at a concrete input oversized on both axes. -/
theorem oversized_window_amended_witness :
    ((1 : Int) ≤ 1 ∧ (0 : Int) < 1 ∧ (0 : Nat) < 10 ∧ (0 : Nat) < 10 ∧
      (5 : Nat) < 20 ∧ (5 : Nat) < 20 ∧ ((10 : Nat) < 20 ∨ (10 : Nat) < 20)) ∧
    (∃ L, plan 10 10 20 20 5 5 0 1 1 = Except.ok L ∧ L ≠ [] ∧
      ((10 : Nat) < 20 → ∀ d ∈ L,
        d.yS = ((10 : Nat) : Int) - ((20 : Nat) : Int) ∧ d.yS < 0 ∧
        npSliceLen 10 d.yS d.yE < 20) ∧
      ((10 : Nat) < 20 → ∀ d ∈ L,
        d.xS = ((10 : Nat) : Int) - ((20 : Nat) : Int) ∧ d.xS < 0 ∧
        npSliceLen 10 d.xS d.xE < 20)) :=
  ⟨⟨by decide, by decide, by decide, by decide, by decide, by decide,
      Or.inl (by decide)⟩,
    oversized_window_amended 10 10 20 20 5 5 0 1 1 (by decide) (by decide)
      (by decide) (by decide) (by decide) (by decide) (Or.inl (by decide))⟩

/-- C4 counterexample: a negative stride (window 2, overlap 3 on the Y axis)
does not make planning fail: the Python range over a negative step is simply
empty, so the planner silently produces no tiles at all. -/
theorem negative_stride_no_error :
    (2 : Int) - 3 < 0 ∧
    plan 10 10 5 2 0 3 0 1 1 = Except.ok [] :=
  ⟨by decide, by rfl⟩

/-- C4 amended: planning fails with the range error only when the stride on
an axis is exactly zero (and the slice range is nonempty, so the loop body
is reached); when the stride is negative, planning does not fail and
silently produces no tiles. -/
theorem nonpositive_stride_amended (height width wx wy ox oy : Nat)
    (zS zE zskip : Int) (hzk : 1 ≤ zskip) (hz : zS < zE) :
    ((wy : Int) - oy = 0 →
      plan height width wx wy ox oy zS zE zskip =
        Except.error "range() arg 3 must not be zero") ∧
    ((wy : Int) - oy < 0 →
      plan height width wx wy ox oy zS zE zskip = Except.ok []) ∧
    (0 < (wy : Int) - oy → 0 < height →
      ((wx : Int) - ox = 0 →
        plan height width wx wy ox oy zS zE zskip =
          Except.error "range() arg 3 must not be zero") ∧
      ((wx : Int) - ox < 0 →
        plan height width wx wy ox oy zS zE zskip = Except.ok [])) := by
  have hzs : pyRangeList zS zE zskip ≠ [] :=
    pyRangeList_ne_nil zS zE zskip (by omega) hz
  refine ⟨?_, ?_, ?_⟩
  · intro h0
    unfold plan
    rw [if_neg (by omega), if_neg hzs, if_pos h0]
  · intro hneg
    have hys : pyRangeList 0 height ((wy : Int) - oy) = [] :=
      pyRangeList_nil_of_neg 0 height _ hneg (by positivity)
    unfold plan
    rw [if_neg (by omega), if_neg hzs, if_neg (by omega), if_pos hys]
  · intro hpos hh
    have hys : pyRangeList 0 height ((wy : Int) - oy) ≠ [] :=
      pyRangeList_ne_nil 0 height _ hpos (by omega)
    constructor
    · intro h0
      unfold plan
      rw [if_neg (by omega), if_neg hzs, if_neg (by omega), if_neg hys,
        if_pos h0]
    · intro hneg
      have hxs : pyRangeList 0 width ((wx : Int) - ox) = [] :=
        pyRangeList_nil_of_neg 0 width _ hneg (by positivity)
      unfold plan
      rw [if_neg (by omega), if_neg hzs, if_neg (by omega), if_neg hys,
        if_neg (by omega), hxs, planDescs_nil_xs]

/-- C4 amended witness at a concrete input. -/
theorem nonpositive_stride_amended_witness :
    ((1 : Int) ≤ 1 ∧ (0 : Int) < 1) ∧
    ((((3 : Nat) : Int) - ((3 : Nat) : Int) = 0 →
      plan 10 10 5 3 0 3 0 1 1 =
        Except.error "range() arg 3 must not be zero") ∧
    (((3 : Nat) : Int) - ((3 : Nat) : Int) < 0 →
      plan 10 10 5 3 0 3 0 1 1 = Except.ok []) ∧
    (0 < ((3 : Nat) : Int) - ((3 : Nat) : Int) → 0 < (10 : Nat) →
      ((((5 : Nat) : Int) - ((0 : Nat) : Int) = 0 →
        plan 10 10 5 3 0 3 0 1 1 =
          Except.error "range() arg 3 must not be zero") ∧
      ((((5 : Nat) : Int) - ((0 : Nat) : Int) < 0 →
        plan 10 10 5 3 0 3 0 1 1 = Except.ok []))))) :=
  ⟨⟨by decide, by decide⟩,
    nonpositive_stride_amended 10 10 5 3 0 3 0 1 1 (by decide) (by decide)⟩

/-- C6 counterexample: for the valid input height 100, width 70, window
40x40, overlap 10x10, one slice, the emitted sequence is not sorted by
(slice, y_start, x_start): the raw Y candidates 60 and 90 both clamp to
y_start 60, the whole X sweep repeats for the duplicated row, and x_start
falls from 30 back to 0 inside the run of equal y_start values. -/
theorem planner_order_counterexample :
    ((1 : Int) ≤ 1 ∧ (10 : Nat) < 40 ∧ (40 : Nat) ≤ 100 ∧ (40 : Nat) ≤ 70) ∧
    plan 100 70 40 40 10 10 0 1 1 = Except.ok
      [{ slice := 0, xS := 0, xE := 40, yS := 0, yE := 40 },
       { slice := 0, xS := 30, xE := 70, yS := 0, yE := 40 },
       { slice := 0, xS := 30, xE := 70, yS := 0, yE := 40 },
       { slice := 0, xS := 0, xE := 40, yS := 30, yE := 70 },
       { slice := 0, xS := 30, xE := 70, yS := 30, yE := 70 },
       { slice := 0, xS := 30, xE := 70, yS := 30, yE := 70 },
       { slice := 0, xS := 0, xE := 40, yS := 60, yE := 100 },
       { slice := 0, xS := 30, xE := 70, yS := 60, yE := 100 },
       { slice := 0, xS := 30, xE := 70, yS := 60, yE := 100 },
       { slice := 0, xS := 0, xE := 40, yS := 60, yE := 100 },
       { slice := 0, xS := 30, xE := 70, yS := 60, yE := 100 },
       { slice := 0, xS := 30, xE := 70, yS := 60, yE := 100 }] ∧
    ¬ List.Pairwise descLe
      [{ slice := 0, xS := 0, xE := 40, yS := 0, yE := 40 },
       { slice := 0, xS := 30, xE := 70, yS := 0, yE := 40 },
       { slice := 0, xS := 30, xE := 70, yS := 0, yE := 40 },
       { slice := 0, xS := 0, xE := 40, yS := 30, yE := 70 },
       { slice := 0, xS := 30, xE := 70, yS := 30, yE := 70 },
       { slice := 0, xS := 30, xE := 70, yS := 30, yE := 70 },
       { slice := 0, xS := 0, xE := 40, yS := 60, yE := 100 },
       { slice := 0, xS := 30, xE := 70, yS := 60, yE := 100 },
       { slice := 0, xS := 30, xE := 70, yS := 60, yE := 100 },
       { slice := 0, xS := 0, xE := 40, yS := 60, yE := 100 },
       { slice := 0, xS := 30, xE := 70, yS := 60, yE := 100 },
       { slice := 0, xS := 30, xE := 70, yS := 60, yE := 100 }] :=
  ⟨⟨by decide, by decide, by decide, by decide⟩, by rfl, by decide⟩

/-- C6 amended: descriptors are emitted by iterating raw candidate positions
in ascending order, so the sequence is sorted by slice index and, within a
slice, y_start is non-decreasing; within each row the clamped x_start values
are non-decreasing as well; but when clamping collapses the last raw Y
candidates to one y_start the duplicated row restarts X from 0, so the
sequence is not globally sorted by (slice, y_start, x_start).  Re-running
planning on identical inputs yields the identical sequence. -/
theorem planner_order_amended (height width wx wy ox oy : Nat)
    (zS zE zskip : Int) (hzk : 1 ≤ zskip) (hoy : oy < wy) (hox : ox < wx) :
    ∃ L, plan height width wx wy ox oy zS zE zskip = Except.ok L ∧
      L.Pairwise descLeZY ∧
      ((pyRangeList 0 width ((wx : Int) - ox)).map
        (fun x => min x ((width : Int) - wx))).Pairwise (· ≤ ·) ∧
      plan height width wx wy ox oy zS zE zskip =
        plan height width wx wy ox oy zS zE zskip := by
  have hsy : (0 : Int) < (wy : Int) - oy := by omega
  have hsx : (0 : Int) < (wx : Int) - ox := by omega
  have hxmono : ((pyRangeList 0 width ((wx : Int) - ox)).map
      (fun x => min x ((width : Int) - wx))).Pairwise (· ≤ ·) := by
    rw [List.pairwise_map]
    refine (pyRangeList_sorted 0 width _ hsx).imp ?_
    intro a b hab
    exact min_le_min hab.le (le_refl _)
  by_cases hzs : pyRangeList zS zE zskip = []
  · refine ⟨[], ?_, List.Pairwise.nil, hxmono, rfl⟩
    unfold plan
    rw [if_neg (by omega), if_pos hzs]
  · by_cases hys : pyRangeList 0 height ((wy : Int) - oy) = []
    · refine ⟨[], ?_, List.Pairwise.nil, hxmono, rfl⟩
      unfold plan
      rw [if_neg (by omega), if_neg hzs, if_neg (by omega), if_pos hys]
    · refine ⟨planDescs (pyRangeList zS zE zskip)
        (pyRangeList 0 height ((wy : Int) - oy))
        (pyRangeList 0 width ((wx : Int) - ox)) height width wx wy,
        ?_, ?_, hxmono, rfl⟩
      · unfold plan
        rw [if_neg (by omega), if_neg hzs, if_neg (by omega), if_neg hys,
          if_neg (by omega)]
      · unfold planDescs
        refine pairwise_flatMap _ _ ?_ ?_
        · intro z hz2
          refine pairwise_flatMap _ _ ?_ ?_
          · intro y hy2
            rw [List.pairwise_map]
            exact pairwise_of_forall_rel _
              (fun a b => Or.inr ⟨rfl, le_refl _⟩)
          · refine (pyRangeList_sorted 0 height _ hsy).imp ?_
            intro a b hab d hd e he
            rcases List.mem_map.mp hd with ⟨x1, _, rfl⟩
            rcases List.mem_map.mp he with ⟨x2, _, rfl⟩
            exact Or.inr ⟨rfl, min_le_min hab.le (le_refl _)⟩
        · refine (pyRangeList_sorted zS zE zskip (by omega)).imp ?_
          intro a b hab d hd e he
          rcases List.mem_flatMap.mp hd with ⟨y1, _, hd2⟩
          rcases List.mem_map.mp hd2 with ⟨x1, _, rfl⟩
          rcases List.mem_flatMap.mp he with ⟨y2, _, he2⟩
          rcases List.mem_map.mp he2 with ⟨x2, _, rfl⟩
          exact Or.inl hab

/-- C6 amended witness at a concrete input. -/
theorem planner_order_amended_witness :
    ((1 : Int) ≤ 1 ∧ (10 : Nat) < 40 ∧ (10 : Nat) < 40) ∧
    (∃ L, plan 100 70 40 40 10 10 0 1 1 = Except.ok L ∧
      L.Pairwise descLeZY ∧
      ((pyRangeList 0 70 (((40 : Nat) : Int) - ((10 : Nat) : Int))).map
        (fun x => min x (((70 : Nat) : Int) - ((40 : Nat) : Int)))).Pairwise (· ≤ ·) ∧
      plan 100 70 40 40 10 10 0 1 1 = plan 100 70 40 40 10 10 0 1 1) :=
  ⟨⟨by decide, by decide, by decide⟩,
    planner_order_amended 100 70 40 40 10 10 0 1 1 (by decide) (by decide)
      (by decide)⟩
